import Mathlib

/-!
Shallow embedding of a FIX-log parsing program (`main.py`).

Strings are modelled as `List Char`.  The Python string operations used by
the program (`str.split` with and without a maxsplit, `str.find` with and
without a start index, `str.strip`, substring membership) are embedded as
executable functions below.  Python dictionaries are modelled as ordered
association lists (`PyDict`): assignment to an existing key updates the
value in place, assignment to a fresh key appends the pair at the end,
exactly matching insertion-order semantics of Python dicts.  A Python
`ValueError` (raised by unpacking a 1-element split result) is modelled by
an `Option` result of `none`.
-/

/-- The whitespace characters stripped by Python `str.strip()` (ASCII). -/
def pyws (c : Char) : Bool :=
  c = ' ' || c = '\t' || c = '\n' || c = '\r' || c = '\x0b' || c = '\x0c'

/-- Python `s.strip()`: remove leading and trailing whitespace. -/
def strip (s : List Char) : List Char :=
  ((s.dropWhile pyws).reverse.dropWhile pyws).reverse

/-- Python `s.split(sep)` for a one-character separator (no maxsplit):
`''.split(sep) = ['']`, and every separator occurrence opens a new part. -/
def splitOn (sep : Char) : List Char → List (List Char)
  | [] => [[]]
  | c :: rest =>
    if c = sep then [] :: splitOn sep rest
    else
      match splitOn sep rest with
      | [] => [[c]]
      | h :: t => (c :: h) :: t

/-- Python `key, value = part.split(c, 1)` preceded by a `c in part` test:
`none` when the character does not occur, otherwise the pieces before and
after its first occurrence. -/
def splitFirstChar (sep : Char) : List Char → Option (List Char × List Char)
  | [] => none
  | c :: rest =>
    if c = sep then some ([], rest)
    else (splitFirstChar sep rest).map (fun p => (c :: p.1, p.2))

/-- Python `s.find(pat)` as an `Option`: the least index at which `pat`
occurs in `s` (`none` models the `-1` result). -/
def pyFind (pat : List Char) : List Char → Option Nat
  | [] => if pat.isPrefixOf ([] : List Char) then some 0 else none
  | c :: rest =>
    if pat.isPrefixOf (c :: rest) then some 0
    else (pyFind pat rest).map (fun i => i + 1)

/-- Python `s.find(pat, start)`: least absolute index `≥ start` at which
`pat` occurs in `s`. -/
def pyFindFrom (pat s : List Char) (start : Nat) : Option Nat :=
  (pyFind pat (s.drop start)).map (fun i => i + start)

/-- Python `before, after = s.split(sep, 1)`: `none` (a `ValueError` on
unpacking) when `sep` does not occur in `s`. -/
def splitFirstStr (sep s : List Char) : Option (List Char × List Char) :=
  match pyFind sep s with
  | none => none
  | some i => some (s.take i, s.drop (i + sep.length))

/-- A value stored in the per-message dictionary: a scalar string, a list
of strings (the repeating-group entries), or the empty dict stored under
the key `'Unknown Tags'`. -/
inductive Value where
  | str : List Char → Value
  | lst : List (List Char) → Value
  | dict0 : Value
deriving DecidableEq

/-- A Python dict modelled as an insertion-ordered association list. -/
abbrev PyDict := List (List Char × Value)

/-- Python `d[k]` / `k in d`: first (unique) binding of `k`, if any. -/
def alookup (k : List Char) : List (List Char × Value) → Option Value
  | [] => none
  | kv :: rest => if k = kv.1 then some kv.2 else alookup k rest

/-- Python `d[k] = v`: update the binding in place if `k` is present,
otherwise append the new binding at the end. -/
def dinsert (k : List Char) (v : Value) : PyDict → PyDict
  | [] => [(k, v)]
  | kv :: rest => if k = kv.1 then (k, v) :: rest else kv :: dinsert k v rest

/-- String-key association list for the tag schema. -/
def slookup (k : List Char) : List (List Char × List Char) → Option (List Char)
  | [] => none
  | kv :: rest => if k = kv.1 then some kv.2 else slookup k rest

/-- The `columns_mapping` dict of the source: FIX tag numbers (plus the
two preamble pseudo-tags) to human-readable column names, in declaration
order. -/
def columns_mapping : List (List Char × List Char) :=
  [ ("TID".toList, "TID".toList),
    ("Order Type".toList, "Order Type".toList),
    ("8".toList, "8 BeginString".toList),
    ("9".toList, "9 BodyLength".toList),
    ("35".toList, "35 MsgType".toList),
    ("34".toList, "34 MsgSeqNum".toList),
    ("49".toList, "49 SenderCompID".toList),
    ("56".toList, "56 TargetCompID".toList),
    ("57".toList, "57 TargetSubID".toList),
    ("52".toList, "52 SendingTime".toList),
    ("11".toList, "11 ClOrdID".toList),
    ("17".toList, "17 ExecID".toList),
    ("37".toList, "37 OrderID".toList),
    ("198".toList, "198 SecondaryOrderId".toList),
    ("150".toList, "150 ExecType".toList),
    ("453".toList, "453 NoPartyIDs".toList),
    ("448".toList, "448 PartyID".toList),
    ("447".toList, "447 PartyIDSource".toList),
    ("452".toList, "452 PartyRole".toList),
    ("55".toList, "55 Symbol".toList),
    ("48".toList, "48 SecurityID".toList),
    ("22".toList, "22 SecurityIDSource".toList),
    ("762".toList, "762 SecuritySubType".toList),
    ("1".toList, "1 Account".toList),
    ("14".toList, "14 CumQty".toList),
    ("31".toList, "31 LastPx".toList),
    ("32".toList, "32 LastQty".toList),
    ("38".toList, "38 OrderQty".toList),
    ("110".toList, "110 MinQty".toList),
    ("39".toList, "39 OrdStatus".toList),
    ("40".toList, "40 OrdType".toList),
    ("44".toList, "44 Price".toList),
    ("847".toList, "847 TargetStrategy".toList),
    ("54".toList, "54 Side".toList),
    ("59".toList, "59 TimeInForce".toList),
    ("60".toList, "60 TransactTime".toList),
    ("75".toList, "75 TradeDate".toList),
    ("64".toList, "64 SettlDate".toList),
    ("151".toList, "151 LeavesQty".toList),
    ("880".toList, "880 TrdMatchID".toList),
    ("1891".toList, "1891 TrdMatchSubID".toList),
    ("1057".toList, "1057 AggressorIndicator".toList),
    ("381".toList, "381 GrossTradeAmt".toList),
    ("797".toList, "797 CopyMsgIndicator".toList),
    ("10".toList, "10 CheckSum".toList) ]

/-- The `['448', '447', '452']` literal of the source. -/
def repeatedTags : List (List Char) := ["448".toList, "447".toList, "452".toList]

/-- The `tid` computation of `extract_preamble_details`: search the
preamble for `(TID=`; when found, take the preamble prefix through the
first `)` at or after the marker (Python `find` returning `-1` makes
`tid_end = 0`, so no later `)` yields the empty string), stripped;
otherwise the sentinel. -/
def preambleTid (preamble : List Char) : List Char :=
  match pyFind "(TID=".toList preamble with
  | some tid_marker =>
    let tid_end : Nat :=
      match pyFindFrom ")".toList preamble tid_marker with
      | some j => j + 1
      | none => 0
    strip (preamble.take tid_end)
  | none => "Unknown TID".toList

/-- The `order_type` computation of `extract_preamble_details`: everything
after the first `| ` of the preamble, stripped; otherwise the sentinel. -/
def preambleOt (preamble : List Char) : List Char :=
  match pyFind "| ".toList preamble with
  | some order_type_marker => strip (preamble.drop (order_type_marker + 2))
  | none => "Unknown Order Type".toList

/-- `extract_preamble_details(line)` of the source: split off the preamble
before the first `']: '` (raising, i.e. `none`, when absent), then extract
the transaction id and the order type from the preamble. -/
def extract_preamble_details (line : List Char) : Option (List Char × List Char) :=
  match splitFirstStr "]: ".toList line with
  | none => none
  | some (preamble, _) => some (preambleTid preamble, preambleOt preamble)

/-- The loop state of `parse_message`: the dict under construction and the
three repeating-tag accumulators. -/
structure PState where
  data : PyDict
  partyIDs : List (List Char)
  partyIDSources : List (List Char)
  partyRoles : List (List Char)

/-- One iteration of the `for part in message_str.split('|')` loop of
`parse_message`. -/
def processPart (st : PState) (part : List Char) : PState :=
  match splitFirstChar '=' part with
  | none => st
  | some (key, value) =>
    match slookup key columns_mapping with
    | some disp =>
      if key ∈ repeatedTags then
        if key = "448".toList then
          ⟨st.data, st.partyIDs ++ [value], st.partyIDSources, st.partyRoles⟩
        else if key = "447".toList then
          ⟨st.data, st.partyIDs, st.partyIDSources ++ [value], st.partyRoles⟩
        else if key = "452".toList then
          ⟨st.data, st.partyIDs, st.partyIDSources, st.partyRoles ++ [value]⟩
        else st
      else
        ⟨dinsert disp (Value.str value) st.data, st.partyIDs, st.partyIDSources, st.partyRoles⟩
    | none =>
      ⟨dinsert ("Unknown Tag ".toList ++ key) (Value.str value) st.data,
        st.partyIDs, st.partyIDSources, st.partyRoles⟩

/-- The first three statements of `parse_message`: the dict
`{'Unknown Tags': {}}` followed by the `'TID'` and `'Order Type'`
assignments. -/
def initData (tid order_type : List Char) : PyDict :=
  dinsert "Order Type".toList (Value.str order_type)
    (dinsert "TID".toList (Value.str tid) [("Unknown Tags".toList, Value.dict0)])

/-- The tail of `parse_message`: `if partyIDs:` attach the three repeated
tag lists (insertion order 448, 447, 452), else leave the dict alone. -/
def attachGroups (st : PState) : PyDict :=
  if st.partyIDs.isEmpty then st.data
  else
    dinsert "452 PartyRole".toList (Value.lst st.partyRoles)
      (dinsert "447 PartyIDSource".toList (Value.lst st.partyIDSources)
        (dinsert "448 PartyID".toList (Value.lst st.partyIDs) st.data))

/-- `parse_message(line)` of the source: `none` models the `ValueError`
raised (inside `extract_preamble_details`) when the line has no `']: '`
separator. -/
def parse_message (line : List Char) : Option PyDict :=
  match extract_preamble_details line with
  | none => none
  | some (tid, order_type) =>
    match splitFirstStr "]: ".toList line with
    | none => none
    | some (_, message_str) =>
      some (attachGroups
        ((splitOn '|' message_str).foldl processPart ⟨initData tid order_type, [], [], []⟩))

/-- The record `parse_message` produces for a line with preamble `p` and
body `b`. -/
def assembleRecord (p b : List Char) : PyDict :=
  attachGroups
    ((splitOn '|' b).foldl processPart ⟨initData (preambleTid p) (preambleOt p), [], [], []⟩)

/-- The list comprehension of `process_file` applied to the already
blank-filtered lines: the first raised `ValueError` aborts the whole
comprehension, modelled by a `none` overall result. -/
def parse_all : List (List Char) → Option (List PyDict)
  | [] => some []
  | l :: rest =>
    match parse_message l with
    | none => none
    | some d =>
      match parse_all rest with
      | none => none
      | some ds => some (d :: ds)

/-- `process_file` of the source, over an abstract list of input lines:
blank lines (falsy `line.strip()`) are skipped, every other line is parsed
in order, and any parse failure aborts the whole batch. -/
def process_file (lines : List (List Char)) : Option (List PyDict) :=
  parse_all (lines.filter (fun l => decide (strip l ≠ [])))

/-- First-appearance deduplication of a key list: the column order pandas
gives a `DataFrame` built from a list of dicts (union of the dict keys in
order of first appearance). -/
def dedupFirst : List (List Char) → List (List Char)
  | [] => []
  | k :: rest => k :: (dedupFirst rest).filter (fun b => decide (b ≠ k))

/-- `pd.DataFrame(messages).columns`: all dict keys across the records, in
order of first appearance. -/
def df_columns (msgs : List PyDict) : List (List Char) :=
  dedupFirst (msgs.flatMap (fun m => m.map (fun kv => kv.1)))

/-- The `ordered_columns` list of `save_to_excel`: `['TID', 'Order Type']`
followed by every `columns_mapping` value whose key is neither `'TID'` nor
`'Order Type'`, in declaration order. -/
def ordered_columns : List (List Char) :=
  ["TID".toList, "Order Type".toList] ++
    (columns_mapping.filter
      (fun kv => decide (¬ (kv.1 = "TID".toList ∨ kv.1 = "Order Type".toList)))).map
      (fun kv => kv.2)

/-- The `extra_columns` list of `save_to_excel`: DataFrame columns not in
`ordered_columns`, in DataFrame order. -/
def extra_columns (msgs : List PyDict) : List (List Char) :=
  (df_columns msgs).filter (fun c => decide (¬ c ∈ ordered_columns))

/-- The `final_columns_order` of `save_to_excel`: the reindexed table's
column sequence. -/
def final_columns (msgs : List PyDict) : List (List Char) :=
  ordered_columns ++ extra_columns msgs

/-- The value of one tag code collected across a message body in encounter
order: the filter the repeating-tag accumulators are expected to compute. -/
def tagSel (code : List Char) (part : List Char) : Option (List Char) :=
  match splitFirstChar '=' part with
  | some kv => if kv.1 = code then some kv.2 else none
  | none => none

/-- All values of tag `code` in body `b`, in encounter order. -/
def tagSeq (code b : List Char) : List (List Char) :=
  (splitOn '|' b).filterMap (tagSel code)

/-- Modelled from the spec: the unknown-tag columns of the assembled
table, per the words of the spec — one column per unknown tag code, in
order of first appearance across the records.  (In the record dicts these
columns are exactly the keys carrying the `Unknown Tag ` name prefix.) -/
def spec_unknown_columns (msgs : List PyDict) : List (List Char) :=
  dedupFirst
    ((msgs.flatMap (fun m => m.map (fun kv => kv.1))).filter
      (fun k => "Unknown Tag ".toList.isPrefixOf k))

/-- The shapes a key of a record dict can take: a canonical column, the
stray `'Unknown Tags'` key, or an `'Unknown Tag <code>'` key. -/
def allowedKey (k : List Char) : Prop :=
  k ∈ ordered_columns ∨ k = "Unknown Tags".toList ∨
    "Unknown Tag ".toList.isPrefixOf k = true

/-- `pat` occurs in `s` with its first occurrence starting at index `i`. -/
def firstOccAt (pat s : List Char) (i : Nat) : Prop :=
  pat.isPrefixOf (s.drop i) = true ∧ ∀ j, j < i → pat.isPrefixOf (s.drop j) = false

/-- `pat` does not occur anywhere in `s`. -/
def noOcc (pat s : List Char) : Prop :=
  ∀ j, pat.isPrefixOf (s.drop j) = false

/-- `pat` occurs in `s` at some index `≥ start`, the first such being `j`. -/
def firstOccFromAt (pat s : List Char) (start j : Nat) : Prop :=
  start ≤ j ∧ pat.isPrefixOf (s.drop j) = true ∧
    ∀ j2, start ≤ j2 → j2 < j → pat.isPrefixOf (s.drop j2) = false

/-- `pat` does not occur in `s` at any index `≥ start`. -/
def noOccFrom (pat s : List Char) (start : Nat) : Prop :=
  ∀ j, start ≤ j → pat.isPrefixOf (s.drop j) = false

/-! ### Characterisation of the Python `find` embeddings -/

theorem pyFind_some_first (pat : List Char) :
    ∀ (s : List Char) (i : Nat), pyFind pat s = some i → firstOccAt pat s i := by
  intro s
  induction s with
  | nil =>
    intro i h
    unfold pyFind at h
    split at h
    · rename_i hp
      cases h
      exact ⟨hp, fun j hj => absurd hj (by omega)⟩
    · cases h
  | cons c rest ih =>
    intro i h
    unfold pyFind at h
    split at h
    · rename_i hp
      cases h
      exact ⟨by simpa using hp, fun j hj => absurd hj (by omega)⟩
    · rename_i hp
      rw [Option.map_eq_some'] at h
      obtain ⟨i', hi', rfl⟩ := h
      obtain ⟨h1, h2⟩ := ih i' hi'
      refine ⟨by simpa using h1, ?_⟩
      intro j hj
      cases j with
      | zero =>
        simp only [List.drop_zero]
        exact Bool.not_eq_true _ ▸ hp
      | succ j' =>
        simpa using h2 j' (by omega)

theorem pyFind_none_iff (pat : List Char) :
    ∀ s : List Char, pyFind pat s = none ↔ noOcc pat s := by
  intro s
  induction s with
  | nil =>
    unfold pyFind noOcc
    split
    · rename_i hp
      constructor
      · intro h; cases h
      · intro h
        have h0 := h 0
        simp only [List.drop_nil] at h0
        rw [h0] at hp
        exact absurd hp Bool.false_ne_true
    · rename_i hp
      constructor
      · intro _ j
        simpa using Bool.not_eq_true _ ▸ hp
      · intro _; rfl
  | cons c rest ih =>
    unfold pyFind
    split
    · rename_i hp
      constructor
      · intro h; cases h
      · intro h
        have h0 := h 0
        simp only [List.drop_zero] at h0
        rw [h0] at hp
        exact absurd hp Bool.false_ne_true
    · rename_i hp
      constructor
      · intro h j
        have hr : pyFind pat rest = none := by
          cases hf : pyFind pat rest with
          | none => rfl
          | some k => rw [hf] at h; cases h
        have hno := ih.mp hr
        cases j with
        | zero =>
          simp only [List.drop_zero]
          exact Bool.not_eq_true _ ▸ hp
        | succ j' => simpa using hno j'
      · intro h
        have hr : pyFind pat rest = none := ih.mpr (fun j => by simpa using h (j + 1))
        simp [hr]

theorem pyFind_eq_some_of_first (pat s : List Char) (i : Nat) (h : firstOccAt pat s i) :
    pyFind pat s = some i := by
  cases hf : pyFind pat s with
  | none =>
    have hno := (pyFind_none_iff pat s).mp hf
    exact absurd h.1 (by simp [hno i])
  | some i' =>
    obtain ⟨h1, h2⟩ := pyFind_some_first pat s i' hf
    rcases Nat.lt_trichotomy i i' with hlt | heq | hgt
    · exact absurd h.1 (by simp [h2 i hlt])
    · rw [heq]
    · exact absurd h1 (by simp [h.2 i' hgt])

theorem pyFindFrom_some_first (pat s : List Char) (start j : Nat)
    (h : pyFindFrom pat s start = some j) : firstOccFromAt pat s start j := by
  unfold pyFindFrom at h
  rw [Option.map_eq_some'] at h
  obtain ⟨i, hi, rfl⟩ := h
  obtain ⟨h1, h2⟩ := pyFind_some_first pat _ i hi
  refine ⟨by omega, ?_, ?_⟩
  · rw [List.drop_drop] at h1
    simpa [Nat.add_comm] using h1
  · intro j2 hj2a hj2b
    have hx := h2 (j2 - start) (by omega)
    rw [List.drop_drop] at hx
    have heq : start + (j2 - start) = j2 := by omega
    rwa [heq] at hx

theorem pyFindFrom_none_iff (pat s : List Char) (start : Nat) :
    pyFindFrom pat s start = none ↔ noOccFrom pat s start := by
  unfold pyFindFrom noOccFrom
  rw [Option.map_eq_none', pyFind_none_iff]
  unfold noOcc
  constructor
  · intro h j hj
    have hx := h (j - start)
    rw [List.drop_drop] at hx
    have heq : start + (j - start) = j := by omega
    rwa [heq] at hx
  · intro h j
    rw [List.drop_drop]
    exact h (start + j) (by omega)

theorem pyFindFrom_eq_some_of_first (pat s : List Char) (start j : Nat)
    (h : firstOccFromAt pat s start j) : pyFindFrom pat s start = some j := by
  cases hf : pyFindFrom pat s start with
  | none =>
    have hno := (pyFindFrom_none_iff pat s start).mp hf
    exact absurd h.2.1 (by simp [hno j h.1])
  | some j' =>
    have h' := pyFindFrom_some_first pat s start j' hf
    rcases Nat.lt_trichotomy j j' with hlt | heq | hgt
    · exact absurd h.2.1 (by simp [h'.2.2 j h.1 hlt])
    · rw [heq]
    · exact absurd h'.2.1 (by simp [h.2.2 j' h'.1 hgt])

theorem infix_iff_occ (pat s : List Char) :
    pat <:+: s ↔ ∃ j, pat.isPrefixOf (s.drop j) = true := by
  constructor
  · rintro ⟨u, v, h⟩
    refine ⟨u.length, ?_⟩
    rw [List.isPrefixOf_iff_prefix, ← h, List.append_assoc, List.drop_left]
    exact List.prefix_append pat v
  · rintro ⟨j, hj⟩
    rw [List.isPrefixOf_iff_prefix] at hj
    exact hj.isInfix.trans (List.drop_suffix j s).isInfix

/-! ### Dictionary lemmas -/

theorem alookup_dinsert_self (k : List Char) (v : Value) (d : PyDict) :
    alookup k (dinsert k v d) = some v := by
  induction d with
  | nil => simp [dinsert, alookup]
  | cons kv rest ih =>
    by_cases h : k = kv.1
    · simp [dinsert, h, alookup]
    · simp [dinsert, h, alookup, ih]

theorem alookup_dinsert_ne (k k' : List Char) (v : Value) (d : PyDict) (h : k ≠ k') :
    alookup k (dinsert k' v d) = alookup k d := by
  induction d with
  | nil => simp [dinsert, alookup, h]
  | cons kv rest ih =>
    by_cases h2 : k' = kv.1
    · subst h2
      simp [dinsert, alookup, h]
    · by_cases h3 : k = kv.1
      · simp [dinsert, h2, alookup, h3]
      · simp [dinsert, h2, alookup, h3, ih]

theorem dinsert_ne_nil (k : List Char) (v : Value) (d : PyDict) : dinsert k v d ≠ [] := by
  intro hcontra
  cases d with
  | nil => cases hcontra
  | cons kv rest =>
    unfold dinsert at hcontra
    split at hcontra
    · cases hcontra
    · cases hcontra

theorem dinsert_keys_mem (k : List Char) (v : Value) (d : PyDict) :
    ∀ k', k' ∈ (dinsert k v d).map (fun kv => kv.1) →
      k' = k ∨ k' ∈ d.map (fun kv => kv.1) := by
  induction d with
  | nil => intro k' h; simp [dinsert] at h; exact Or.inl h
  | cons kv rest ih =>
    intro k' h
    unfold dinsert at h
    split at h
    · rw [List.map_cons, List.mem_cons] at h
      rcases h with h | h
      · exact Or.inl h
      · exact Or.inr (List.mem_cons_of_mem _ h)
    · rw [List.map_cons, List.mem_cons] at h
      rcases h with h | h
      · exact Or.inr (by rw [List.map_cons, List.mem_cons]; exact Or.inl h)
      · rcases ih k' h with h' | h'
        · exact Or.inl h'
        · exact Or.inr (by rw [List.map_cons, List.mem_cons]; exact Or.inr h')

theorem dinsert_head_key (k : List Char) (v : Value) (d : PyDict) (h : d ≠ []) :
    ((dinsert k v d).map (fun kv => kv.1)).head? = (d.map (fun kv => kv.1)).head? := by
  cases d with
  | nil => exact absurd rfl h
  | cons kv rest =>
    unfold dinsert
    split
    · rename_i hk
      simp only [List.map_cons, List.head?_cons, hk]
    · simp only [List.map_cons, List.head?_cons]

theorem slookup_mem (k : List Char) (m : List (List Char × List Char)) (v : List Char)
    (h : slookup k m = some v) : (k, v) ∈ m := by
  induction m with
  | nil => cases h
  | cons kv rest ih =>
    unfold slookup at h
    split at h
    · rename_i hk
      cases h
      cases kv with
      | mk a b =>
        have hk' : k = a := hk
        subst hk'
        exact List.mem_cons_self _ _
    · right
      exact ih h

/-! ### Concrete facts about the schema -/

theorem cm_val_mem_ordered : ∀ kv ∈ columns_mapping, kv.2 ∈ ordered_columns := by decide

theorem cm_val_tid :
    ∀ kv ∈ columns_mapping, kv.2 = "TID".toList → kv.1 = "TID".toList := by decide

theorem cm_val_ot :
    ∀ kv ∈ columns_mapping, kv.2 = "Order Type".toList → kv.1 = "Order Type".toList := by
  decide

theorem cm_val_group :
    ∀ kv ∈ columns_mapping,
      (kv.2 = "448 PartyID".toList ∨ kv.2 = "447 PartyIDSource".toList ∨
        kv.2 = "452 PartyRole".toList) → kv.1 ∈ repeatedTags := by decide

theorem cm_val_ne_ut : ∀ kv ∈ columns_mapping, kv.2 ≠ "Unknown Tags".toList := by decide

theorem ut_not_mem_ordered : "Unknown Tags".toList ∉ ordered_columns := by decide

theorem ordered_nodup : ordered_columns.Nodup := by decide

theorem ordered_no_utpref :
    ∀ c ∈ ordered_columns, "Unknown Tag ".toList.isPrefixOf c = false := by decide

theorem utpref_uts_false :
    "Unknown Tag ".toList.isPrefixOf "Unknown Tags".toList = false := by decide

theorem utag_isPrefixOf (k : List Char) :
    "Unknown Tag ".toList.isPrefixOf ("Unknown Tag ".toList ++ k) = true := by
  rw [List.isPrefixOf_iff_prefix]
  exact List.prefix_append _ _

theorem utag_ne_of_not_pref {c : List Char}
    (h : "Unknown Tag ".toList.isPrefixOf c = false) :
    ∀ k, "Unknown Tag ".toList ++ k ≠ c := by
  intro k heq
  rw [← heq, utag_isPrefixOf] at h
  cases h

/-! ### Structure of `parse_message` -/

theorem extract_eq_of_split (line p b : List Char)
    (hsplit : splitFirstStr "]: ".toList line = some (p, b)) :
    extract_preamble_details line = some (preambleTid p, preambleOt p) := by
  unfold extract_preamble_details
  rw [hsplit]

theorem parse_message_eq_assemble (line p b : List Char)
    (hsplit : splitFirstStr "]: ".toList line = some (p, b)) :
    parse_message line = some (assembleRecord p b) := by
  unfold parse_message
  rw [extract_eq_of_split line p b hsplit, hsplit]
  rfl

theorem splitFirstStr_none_iff (sep s : List Char) :
    splitFirstStr sep s = none ↔ pyFind sep s = none := by
  unfold splitFirstStr
  cases h : pyFind sep s <;> simp

theorem parse_message_none_iff (line : List Char) :
    parse_message line = none ↔ pyFind "]: ".toList line = none := by
  cases h : splitFirstStr "]: ".toList line with
  | none =>
    have h2 : pyFind "]: ".toList line = none := (splitFirstStr_none_iff _ _).mp h
    have h3 : parse_message line = none := by
      unfold parse_message extract_preamble_details
      rw [h]
    exact iff_of_true h3 h2
  | some pb =>
    obtain ⟨p, b⟩ := pb
    have h2 : ¬ pyFind "]: ".toList line = none := by
      intro hc
      rw [(splitFirstStr_none_iff _ _).mpr hc] at h
      cases h
    rw [parse_message_eq_assemble line p b h]
    exact iff_of_false (by intro hc; cases hc) h2

/-! ### Case analysis of one loop iteration -/

theorem slookup_448 : slookup "448".toList columns_mapping = some "448 PartyID".toList := by
  decide

theorem slookup_447 :
    slookup "447".toList columns_mapping = some "447 PartyIDSource".toList := by decide

theorem slookup_452 : slookup "452".toList columns_mapping = some "452 PartyRole".toList := by
  decide

theorem processPart_none (st : PState) (part : List Char)
    (h : splitFirstChar '=' part = none) : processPart st part = st := by
  unfold processPart
  rw [h]

theorem processPart_448 (st : PState) (part value : List Char)
    (hsp : splitFirstChar '=' part = some ("448".toList, value)) :
    processPart st part =
      ⟨st.data, st.partyIDs ++ [value], st.partyIDSources, st.partyRoles⟩ := by
  unfold processPart
  rw [hsp]
  simp only [slookup_448]
  rw [if_pos (by decide : "448".toList ∈ repeatedTags)]
  simp

theorem processPart_447 (st : PState) (part value : List Char)
    (hsp : splitFirstChar '=' part = some ("447".toList, value)) :
    processPart st part =
      ⟨st.data, st.partyIDs, st.partyIDSources ++ [value], st.partyRoles⟩ := by
  unfold processPart
  rw [hsp]
  simp only [slookup_447]
  rw [if_pos (by decide : "447".toList ∈ repeatedTags),
    if_neg (by decide : ¬ "447".toList = "448".toList)]
  simp

theorem processPart_452 (st : PState) (part value : List Char)
    (hsp : splitFirstChar '=' part = some ("452".toList, value)) :
    processPart st part =
      ⟨st.data, st.partyIDs, st.partyIDSources, st.partyRoles ++ [value]⟩ := by
  unfold processPart
  rw [hsp]
  simp only [slookup_452]
  rw [if_pos (by decide : "452".toList ∈ repeatedTags),
    if_neg (by decide : ¬ "452".toList = "448".toList),
    if_neg (by decide : ¬ "452".toList = "447".toList)]
  simp

theorem processPart_known (st : PState) (part key value disp : List Char)
    (hsp : splitFirstChar '=' part = some (key, value))
    (hlk : slookup key columns_mapping = some disp) (htr : key ∉ repeatedTags) :
    processPart st part =
      ⟨dinsert disp (Value.str value) st.data,
        st.partyIDs, st.partyIDSources, st.partyRoles⟩ := by
  unfold processPart
  rw [hsp]
  simp only [hlk]
  rw [if_neg htr]

theorem processPart_unknown (st : PState) (part key value : List Char)
    (hsp : splitFirstChar '=' part = some (key, value))
    (hlk : slookup key columns_mapping = none) :
    processPart st part =
      ⟨dinsert ("Unknown Tag ".toList ++ key) (Value.str value) st.data,
        st.partyIDs, st.partyIDSources, st.partyRoles⟩ := by
  unfold processPart
  rw [hsp]
  simp only [hlk]

theorem processPart_cases (st : PState) (part : List Char) :
    (processPart st part = st) ∨
    (∃ key value, splitFirstChar '=' part = some (key, value) ∧ key ∈ repeatedTags ∧
      (processPart st part).data = st.data) ∨
    (∃ key value disp, splitFirstChar '=' part = some (key, value) ∧
      slookup key columns_mapping = some disp ∧ key ∉ repeatedTags ∧
      processPart st part =
        ⟨dinsert disp (Value.str value) st.data,
          st.partyIDs, st.partyIDSources, st.partyRoles⟩) ∨
    (∃ key value, splitFirstChar '=' part = some (key, value) ∧
      slookup key columns_mapping = none ∧
      processPart st part =
        ⟨dinsert ("Unknown Tag ".toList ++ key) (Value.str value) st.data,
          st.partyIDs, st.partyIDSources, st.partyRoles⟩) := by
  cases hsp : splitFirstChar '=' part with
  | none => exact Or.inl (processPart_none st part hsp)
  | some kv =>
    obtain ⟨key, value⟩ := kv
    rcases hlk : slookup key columns_mapping with _ | disp
    · exact Or.inr (Or.inr (Or.inr
        ⟨key, value, rfl, hlk, processPart_unknown st part key value hsp hlk⟩))
    · by_cases htr : key ∈ repeatedTags
      · refine Or.inr (Or.inl ⟨key, value, rfl, htr, ?_⟩)
        have htr' := htr
        simp only [repeatedTags, List.mem_cons, List.not_mem_nil, or_false] at htr'
        rcases htr' with h8 | h7 | h2
        · subst h8; rw [processPart_448 st part value hsp]
        · subst h7; rw [processPart_447 st part value hsp]
        · subst h2; rw [processPart_452 st part value hsp]
      · exact Or.inr (Or.inr (Or.inl ⟨key, value, disp, rfl, hlk, htr,
          processPart_known st part key value disp hsp hlk htr⟩))

/-! ### The repeating-tag accumulators compute `tagSeq` -/

theorem tagSel_eq_some (code part key value : List Char)
    (hsp : splitFirstChar '=' part = some (key, value)) :
    tagSel code part = if key = code then some value else none := by
  unfold tagSel
  rw [hsp]

theorem tagSel_eq_none (code part : List Char) (hsp : splitFirstChar '=' part = none) :
    tagSel code part = none := by
  unfold tagSel
  rw [hsp]

theorem processPart_acc_unchanged (st : PState) (part key value : List Char)
    (hsp : splitFirstChar '=' part = some (key, value)) (h8 : key ≠ "448".toList)
    (h7 : key ≠ "447".toList) (h2 : key ≠ "452".toList) :
    (processPart st part).partyIDs = st.partyIDs ∧
    (processPart st part).partyIDSources = st.partyIDSources ∧
    (processPart st part).partyRoles = st.partyRoles := by
  rcases hlk : slookup key columns_mapping with _ | disp
  · rw [processPart_unknown st part key value hsp hlk]
    exact ⟨rfl, rfl, rfl⟩
  · by_cases htr : key ∈ repeatedTags
    · have htr' := htr
      simp only [repeatedTags, List.mem_cons, List.not_mem_nil, or_false] at htr'
      rcases htr' with h | h | h
      · exact absurd h h8
      · exact absurd h h7
      · exact absurd h h2
    · rw [processPart_known st part key value disp hsp hlk htr]
      exact ⟨rfl, rfl, rfl⟩

theorem processPart_partyIDs (st : PState) (part : List Char) :
    (processPart st part).partyIDs = st.partyIDs ++ (tagSel "448".toList part).toList := by
  cases hsp : splitFirstChar '=' part with
  | none =>
    rw [processPart_none st part hsp, tagSel_eq_none _ _ hsp]
    simp
  | some kv =>
    obtain ⟨key, value⟩ := kv
    rw [tagSel_eq_some _ _ _ _ hsp]
    by_cases h8 : key = "448".toList
    · subst h8
      rw [processPart_448 st part value hsp, if_pos rfl]
      simp
    · rw [if_neg h8]
      by_cases h7 : key = "447".toList
      · subst h7
        rw [processPart_447 st part value hsp]
        simp
      · by_cases h2 : key = "452".toList
        · subst h2
          rw [processPart_452 st part value hsp]
          simp
        · rw [(processPart_acc_unchanged st part key value hsp h8 h7 h2).1]
          simp

theorem processPart_partyIDSources (st : PState) (part : List Char) :
    (processPart st part).partyIDSources =
      st.partyIDSources ++ (tagSel "447".toList part).toList := by
  cases hsp : splitFirstChar '=' part with
  | none =>
    rw [processPart_none st part hsp, tagSel_eq_none _ _ hsp]
    simp
  | some kv =>
    obtain ⟨key, value⟩ := kv
    rw [tagSel_eq_some _ _ _ _ hsp]
    by_cases h7 : key = "447".toList
    · subst h7
      rw [processPart_447 st part value hsp, if_pos rfl]
      simp
    · rw [if_neg h7]
      by_cases h8 : key = "448".toList
      · subst h8
        rw [processPart_448 st part value hsp]
        simp
      · by_cases h2 : key = "452".toList
        · subst h2
          rw [processPart_452 st part value hsp]
          simp
        · rw [(processPart_acc_unchanged st part key value hsp h8 h7 h2).2.1]
          simp

theorem processPart_partyRoles (st : PState) (part : List Char) :
    (processPart st part).partyRoles = st.partyRoles ++ (tagSel "452".toList part).toList := by
  cases hsp : splitFirstChar '=' part with
  | none =>
    rw [processPart_none st part hsp, tagSel_eq_none _ _ hsp]
    simp
  | some kv =>
    obtain ⟨key, value⟩ := kv
    rw [tagSel_eq_some _ _ _ _ hsp]
    by_cases h2 : key = "452".toList
    · subst h2
      rw [processPart_452 st part value hsp, if_pos rfl]
      simp
    · rw [if_neg h2]
      by_cases h8 : key = "448".toList
      · subst h8
        rw [processPart_448 st part value hsp]
        simp
      · by_cases h7 : key = "447".toList
        · subst h7
          rw [processPart_447 st part value hsp]
          simp
        · rw [(processPart_acc_unchanged st part key value hsp h8 h7 h2).2.2]
          simp

theorem foldl_partyIDs (parts : List (List Char)) :
    ∀ st : PState, (parts.foldl processPart st).partyIDs =
      st.partyIDs ++ parts.filterMap (tagSel "448".toList) := by
  induction parts with
  | nil => intro st; simp
  | cons part rest ih =>
    intro st
    rw [List.foldl_cons, ih, processPart_partyIDs, List.filterMap_cons]
    cases h : tagSel "448".toList part with
    | none => simp
    | some v => simp

theorem foldl_partyIDSources (parts : List (List Char)) :
    ∀ st : PState, (parts.foldl processPart st).partyIDSources =
      st.partyIDSources ++ parts.filterMap (tagSel "447".toList) := by
  induction parts with
  | nil => intro st; simp
  | cons part rest ih =>
    intro st
    rw [List.foldl_cons, ih, processPart_partyIDSources, List.filterMap_cons]
    cases h : tagSel "447".toList part with
    | none => simp
    | some v => simp

theorem foldl_partyRoles (parts : List (List Char)) :
    ∀ st : PState, (parts.foldl processPart st).partyRoles =
      st.partyRoles ++ parts.filterMap (tagSel "452".toList) := by
  induction parts with
  | nil => intro st; simp
  | cons part rest ih =>
    intro st
    rw [List.foldl_cons, ih, processPart_partyRoles, List.filterMap_cons]
    cases h : tagSel "452".toList part with
    | none => simp
    | some v => simp

/-! ### The dict component of the loop -/

theorem foldl_data_lookup (k : List Char) :
    ∀ (parts : List (List Char)) (st : PState),
      (∀ part ∈ parts, ∀ key value, splitFirstChar '=' part = some (key, value) →
        (∀ disp, slookup key columns_mapping = some disp → key ∉ repeatedTags → disp ≠ k) ∧
        (slookup key columns_mapping = none → "Unknown Tag ".toList ++ key ≠ k)) →
      alookup k ((parts.foldl processPart st).data) = alookup k st.data := by
  intro parts
  induction parts with
  | nil => intro st _; rfl
  | cons part rest ih =>
    intro st hk
    rw [List.foldl_cons, ih _ (fun q hq => hk q (List.mem_cons_of_mem _ hq))]
    rcases processPart_cases st part with he | ⟨key, value, hsp, htr, hd⟩ |
      ⟨key, value, disp, hsp, hlk, htr, he⟩ | ⟨key, value, hsp, hlk, he⟩
    · rw [he]
    · rw [hd]
    · rw [he]
      exact alookup_dinsert_ne _ _ _ _
        (Ne.symm ((hk part (List.mem_cons_self _ _) key value hsp).1 disp hlk htr))
    · rw [he]
      exact alookup_dinsert_ne _ _ _ _
        (Ne.symm ((hk part (List.mem_cons_self _ _) key value hsp).2 hlk))

theorem foldl_data_keys :
    ∀ (parts : List (List Char)) (st : PState),
      (∀ k ∈ st.data.map (fun kv => kv.1), allowedKey k) →
      ∀ k ∈ ((parts.foldl processPart st).data).map (fun kv => kv.1), allowedKey k := by
  intro parts
  induction parts with
  | nil => intro st h; exact h
  | cons part rest ih =>
    intro st h
    rw [List.foldl_cons]
    refine ih _ ?_
    rcases processPart_cases st part with he | ⟨key, value, hsp, htr, hd⟩ |
      ⟨key, value, disp, hsp, hlk, htr, he⟩ | ⟨key, value, hsp, hlk, he⟩
    · rw [he]; exact h
    · rw [hd]; exact h
    · rw [he]
      intro k hkmem
      rcases dinsert_keys_mem _ _ _ k hkmem with rfl | hmem
      · exact Or.inl (cm_val_mem_ordered _ (slookup_mem _ _ _ hlk))
      · exact h k hmem
    · rw [he]
      intro k hkmem
      rcases dinsert_keys_mem _ _ _ k hkmem with rfl | hmem
      · exact Or.inr (Or.inr (utag_isPrefixOf key))
      · exact h k hmem

theorem foldl_data_ne_nil :
    ∀ (parts : List (List Char)) (st : PState), st.data ≠ [] →
      (parts.foldl processPart st).data ≠ [] := by
  intro parts
  induction parts with
  | nil => intro st h; exact h
  | cons part rest ih =>
    intro st h
    rw [List.foldl_cons]
    refine ih _ ?_
    rcases processPart_cases st part with he | ⟨key, value, hsp, htr, hd⟩ |
      ⟨key, value, disp, hsp, hlk, htr, he⟩ | ⟨key, value, hsp, hlk, he⟩
    · rw [he]; exact h
    · rw [hd]; exact h
    · rw [he]; exact dinsert_ne_nil _ _ _
    · rw [he]; exact dinsert_ne_nil _ _ _

theorem foldl_data_head :
    ∀ (parts : List (List Char)) (st : PState), st.data ≠ [] →
      (((parts.foldl processPart st).data).map (fun kv => kv.1)).head? =
        (st.data.map (fun kv => kv.1)).head? := by
  intro parts
  induction parts with
  | nil => intro st _; rfl
  | cons part rest ih =>
    intro st h
    rw [List.foldl_cons]
    have hne : (processPart st part).data ≠ [] := by
      rcases processPart_cases st part with he | ⟨key, value, hsp, htr, hd⟩ |
        ⟨key, value, disp, hsp, hlk, htr, he⟩ | ⟨key, value, hsp, hlk, he⟩
      · rw [he]; exact h
      · rw [hd]; exact h
      · rw [he]; exact dinsert_ne_nil _ _ _
      · rw [he]; exact dinsert_ne_nil _ _ _
    rw [ih _ hne]
    rcases processPart_cases st part with he | ⟨key, value, hsp, htr, hd⟩ |
      ⟨key, value, disp, hsp, hlk, htr, he⟩ | ⟨key, value, hsp, hlk, he⟩
    · rw [he]
    · rw [hd]
    · rw [he]; exact dinsert_head_key _ _ _ h
    · rw [he]; exact dinsert_head_key _ _ _ h

/-! ### Record-level facts -/

theorem initData_eq (tid ot : List Char) :
    initData tid ot = [("Unknown Tags".toList, Value.dict0),
      ("TID".toList, Value.str tid), ("Order Type".toList, Value.str ot)] := rfl

theorem attachGroups_of_empty (st : PState) (he : st.partyIDs.isEmpty = true) :
    attachGroups st = st.data := by
  unfold attachGroups
  rw [if_pos he]

theorem attachGroups_of_nonempty (st : PState) (he : st.partyIDs.isEmpty = false) :
    attachGroups st =
      dinsert "452 PartyRole".toList (Value.lst st.partyRoles)
        (dinsert "447 PartyIDSource".toList (Value.lst st.partyIDSources)
          (dinsert "448 PartyID".toList (Value.lst st.partyIDs) st.data)) := by
  unfold attachGroups
  rw [if_neg (by simp [he])]

theorem attachGroups_lookup_other (st : PState) (k : List Char)
    (h448 : k ≠ "448 PartyID".toList) (h447 : k ≠ "447 PartyIDSource".toList)
    (h452 : k ≠ "452 PartyRole".toList) :
    alookup k (attachGroups st) = alookup k st.data := by
  unfold attachGroups
  split
  · rfl
  · rw [alookup_dinsert_ne _ _ _ _ h452, alookup_dinsert_ne _ _ _ _ h447,
      alookup_dinsert_ne _ _ _ _ h448]

theorem attachGroups_keys (st : PState) :
    ∀ k ∈ (attachGroups st).map (fun kv => kv.1),
      k = "448 PartyID".toList ∨ k = "447 PartyIDSource".toList ∨
      k = "452 PartyRole".toList ∨ k ∈ st.data.map (fun kv => kv.1) := by
  unfold attachGroups
  split
  · intro k hk; exact Or.inr (Or.inr (Or.inr hk))
  · intro k hk
    rcases dinsert_keys_mem _ _ _ k hk with rfl | hk2
    · exact Or.inr (Or.inr (Or.inl rfl))
    · rcases dinsert_keys_mem _ _ _ k hk2 with rfl | hk3
      · exact Or.inr (Or.inl rfl)
      · rcases dinsert_keys_mem _ _ _ k hk3 with rfl | hk4
        · exact Or.inl rfl
        · exact Or.inr (Or.inr (Or.inr hk4))

theorem attachGroups_head (st : PState) (h : st.data ≠ []) :
    ((attachGroups st).map (fun kv => kv.1)).head? =
      (st.data.map (fun kv => kv.1)).head? := by
  unfold attachGroups
  split
  · rfl
  · rw [dinsert_head_key _ _ _ (dinsert_ne_nil _ _ _),
      dinsert_head_key _ _ _ (dinsert_ne_nil _ _ _), dinsert_head_key _ _ _ h]

theorem assembleRecord_lookup_preserved (p b k : List Char)
    (h448 : k ≠ "448 PartyID".toList) (h447 : k ≠ "447 PartyIDSource".toList)
    (h452 : k ≠ "452 PartyRole".toList)
    (hk : ∀ part ∈ splitOn '|' b, ∀ key value,
      splitFirstChar '=' part = some (key, value) →
      (∀ disp, slookup key columns_mapping = some disp → key ∉ repeatedTags → disp ≠ k) ∧
      (slookup key columns_mapping = none → "Unknown Tag ".toList ++ key ≠ k)) :
    alookup k (assembleRecord p b) =
      alookup k (initData (preambleTid p) (preambleOt p)) := by
  unfold assembleRecord
  rw [attachGroups_lookup_other _ _ h448 h447 h452]
  exact foldl_data_lookup k (splitOn '|' b) _ hk

theorem assembleRecord_ut (p b : List Char) :
    alookup "Unknown Tags".toList (assembleRecord p b) = some Value.dict0 := by
  rw [assembleRecord_lookup_preserved p b _ (by decide) (by decide) (by decide) ?hk]
  · rw [initData_eq]
    rfl
  case hk =>
    intro part _ key value _
    constructor
    · intro disp hlk _ hcontra
      exact cm_val_ne_ut _ (slookup_mem _ _ _ hlk) hcontra
    · intro _
      exact utag_ne_of_not_pref utpref_uts_false key

theorem assembleRecord_tid (p b : List Char)
    (hb : ∀ part ∈ splitOn '|' b, ∀ key value,
      splitFirstChar '=' part = some (key, value) → key ≠ "TID".toList) :
    alookup "TID".toList (assembleRecord p b) = some (Value.str (preambleTid p)) := by
  rw [assembleRecord_lookup_preserved p b _ (by decide) (by decide) (by decide) ?hk]
  · rw [initData_eq]
    rfl
  case hk =>
    intro part hp key value hsp
    constructor
    · intro disp hlk _ heq
      exact hb part hp key value hsp (cm_val_tid _ (slookup_mem _ _ _ hlk) heq)
    · intro _
      exact utag_ne_of_not_pref (by decide) key

theorem assembleRecord_ot (p b : List Char)
    (hb : ∀ part ∈ splitOn '|' b, ∀ key value,
      splitFirstChar '=' part = some (key, value) → key ≠ "Order Type".toList) :
    alookup "Order Type".toList (assembleRecord p b) =
      some (Value.str (preambleOt p)) := by
  rw [assembleRecord_lookup_preserved p b _ (by decide) (by decide) (by decide) ?hk]
  · rw [initData_eq]
    rfl
  case hk =>
    intro part hp key value hsp
    constructor
    · intro disp hlk _ heq
      exact hb part hp key value hsp (cm_val_ot _ (slookup_mem _ _ _ hlk) heq)
    · intro _
      exact utag_ne_of_not_pref (by decide) key

theorem assembleRecord_group (p b : List Char) :
    (tagSeq "448".toList b ≠ [] →
      alookup "448 PartyID".toList (assembleRecord p b) =
        some (Value.lst (tagSeq "448".toList b)) ∧
      alookup "447 PartyIDSource".toList (assembleRecord p b) =
        some (Value.lst (tagSeq "447".toList b)) ∧
      alookup "452 PartyRole".toList (assembleRecord p b) =
        some (Value.lst (tagSeq "452".toList b))) ∧
    (tagSeq "448".toList b = [] →
      alookup "448 PartyID".toList (assembleRecord p b) = none ∧
      alookup "447 PartyIDSource".toList (assembleRecord p b) = none ∧
      alookup "452 PartyRole".toList (assembleRecord p b) = none) := by
  have hids : (((splitOn '|' b).foldl processPart
      ⟨initData (preambleTid p) (preambleOt p), [], [], []⟩).partyIDs) =
      tagSeq "448".toList b := by
    rw [foldl_partyIDs]
    rfl
  have hsrc : (((splitOn '|' b).foldl processPart
      ⟨initData (preambleTid p) (preambleOt p), [], [], []⟩).partyIDSources) =
      tagSeq "447".toList b := by
    rw [foldl_partyIDSources]
    rfl
  have hrol : (((splitOn '|' b).foldl processPart
      ⟨initData (preambleTid p) (preambleOt p), [], [], []⟩).partyRoles) =
      tagSeq "452".toList b := by
    rw [foldl_partyRoles]
    rfl
  have hbase : ∀ k, (k = "448 PartyID".toList ∨ k = "447 PartyIDSource".toList ∨
      k = "452 PartyRole".toList) →
      alookup k (((splitOn '|' b).foldl processPart
        ⟨initData (preambleTid p) (preambleOt p), [], [], []⟩).data) = none := by
    intro k hkcases
    rw [foldl_data_lookup k _ _ ?hcond]
    · rw [initData_eq]
      rcases hkcases with rfl | rfl | rfl
      · rfl
      · rfl
      · rfl
    case hcond =>
      intro part _ key value _
      constructor
      · intro disp hlk htr heq
        apply htr
        apply cm_val_group _ (slookup_mem _ _ _ hlk)
        rw [heq]
        rcases hkcases with rfl | rfl | rfl
        · exact Or.inl rfl
        · exact Or.inr (Or.inl rfl)
        · exact Or.inr (Or.inr rfl)
      · intro _
        rcases hkcases with rfl | rfl | rfl
        · exact utag_ne_of_not_pref (by decide) key
        · exact utag_ne_of_not_pref (by decide) key
        · exact utag_ne_of_not_pref (by decide) key
  constructor
  · intro hne
    have he : (((splitOn '|' b).foldl processPart
        ⟨initData (preambleTid p) (preambleOt p), [], [], []⟩).partyIDs).isEmpty = false := by
      rw [hids]
      cases htl : tagSeq "448".toList b with
      | nil => exact absurd htl hne
      | cons a l => rfl
    unfold assembleRecord
    rw [attachGroups_of_nonempty _ he]
    refine ⟨?_, ?_, ?_⟩
    · rw [alookup_dinsert_ne _ _ _ _ (by decide), alookup_dinsert_ne _ _ _ _ (by decide),
        alookup_dinsert_self, hids]
    · rw [alookup_dinsert_ne _ _ _ _ (by decide), alookup_dinsert_self, hsrc]
    · rw [alookup_dinsert_self, hrol]
  · intro heq
    have he : (((splitOn '|' b).foldl processPart
        ⟨initData (preambleTid p) (preambleOt p), [], [], []⟩).partyIDs).isEmpty = true := by
      rw [hids, heq]
      rfl
    unfold assembleRecord
    rw [attachGroups_of_empty _ he]
    exact ⟨hbase _ (Or.inl rfl), hbase _ (Or.inr (Or.inl rfl)),
      hbase _ (Or.inr (Or.inr rfl))⟩

theorem assembleRecord_keys (p b : List Char) :
    ((assembleRecord p b).map (fun kv => kv.1)).head? = some "Unknown Tags".toList ∧
    ∀ k ∈ (assembleRecord p b).map (fun kv => kv.1), allowedKey k := by
  have hne0 : (initData (preambleTid p) (preambleOt p)) ≠ [] := by
    rw [initData_eq]
    exact List.cons_ne_nil _ _
  have hbase : ∀ k ∈ (initData (preambleTid p) (preambleOt p)).map (fun kv => kv.1),
      allowedKey k := by
    rw [initData_eq]
    intro k hk
    simp only [List.map_cons, List.map_nil, List.mem_cons, List.not_mem_nil, or_false] at hk
    rcases hk with rfl | rfl | rfl
    · exact Or.inr (Or.inl rfl)
    · exact Or.inl (by decide)
    · exact Or.inl (by decide)
  have hfoldne : (((splitOn '|' b).foldl processPart
      ⟨initData (preambleTid p) (preambleOt p), [], [], []⟩).data) ≠ [] :=
    foldl_data_ne_nil _ _ hne0
  constructor
  · unfold assembleRecord
    rw [attachGroups_head _ hfoldne, foldl_data_head _ _ hne0, initData_eq]
    rfl
  · unfold assembleRecord
    intro k hk
    rcases attachGroups_keys _ k hk with rfl | rfl | rfl | hmem
    · exact Or.inl (by decide)
    · exact Or.inl (by decide)
    · exact Or.inl (by decide)
    · exact foldl_data_keys _ _ hbase k hmem

theorem parse_message_some_shape (line : List Char) (d : PyDict)
    (h : parse_message line = some d) :
    ∃ p b, splitFirstStr "]: ".toList line = some (p, b) ∧ d = assembleRecord p b := by
  cases hs : splitFirstStr "]: ".toList line with
  | none =>
    have hnone := (parse_message_none_iff line).mpr ((splitFirstStr_none_iff _ _).mp hs)
    rw [hnone] at h
    cases h
  | some pb =>
    obtain ⟨p, b⟩ := pb
    rw [parse_message_eq_assemble line p b hs] at h
    exact ⟨p, b, rfl, (Option.some.inj h).symm⟩

theorem parse_all_eq_none (lines : List (List Char)) (l : List Char)
    (hl : l ∈ lines) (h : parse_message l = none) : parse_all lines = none := by
  induction lines with
  | nil => cases hl
  | cons a rest ih =>
    rcases List.mem_cons.mp hl with rfl | hl'
    · unfold parse_all
      rw [h]
    · unfold parse_all
      cases hpa : parse_message a with
      | none => rfl
      | some d =>
        rw [ih hl']

/-! ### First-appearance deduplication -/

theorem dedupFirst_nodup : ∀ l : List (List Char), (dedupFirst l).Nodup := by
  intro l
  induction l with
  | nil => exact List.nodup_nil
  | cons k rest ih =>
    unfold dedupFirst
    rw [List.nodup_cons]
    refine ⟨?_, List.Nodup.filter _ ih⟩
    intro hmem
    have hx := List.of_mem_filter hmem
    simp at hx

theorem dedupFirst_filter (p : List Char → Bool) :
    ∀ l : List (List Char), dedupFirst (l.filter p) = (dedupFirst l).filter p := by
  intro l
  induction l with
  | nil => rfl
  | cons k rest ih =>
    have hucons : ∀ (a : List Char) (l : List (List Char)),
        dedupFirst (a :: l) = a :: (dedupFirst l).filter (fun b => decide (b ≠ a)) :=
      fun a l => rfl
    cases hp : p k with
    | true =>
      rw [List.filter_cons_of_pos hp, hucons, hucons, ih, List.filter_cons_of_pos hp,
        List.filter_filter, List.filter_filter]
      congr 1
      apply List.filter_congr
      intro x _
      rw [Bool.and_comm]
    | false =>
      rw [List.filter_cons_of_neg (by simp [hp]), ih, hucons,
        List.filter_cons_of_neg (by simp [hp]), List.filter_filter]
      apply List.filter_congr
      intro x hx
      cases hpx : p x with
      | false => simp [hpx]
      | true =>
        have hxk : x ≠ k := by
          intro hcontra
          rw [hcontra, hp] at hpx
          cases hpx
        simp [hpx, hxk]

/-! ### The assembled column sequence -/

theorem record_keys_head (d : PyDict) (hd : ∃ line, parse_message line = some d) :
    ∃ t, d.map (fun kv => kv.1) = "Unknown Tags".toList :: t := by
  obtain ⟨line, hline⟩ := hd
  obtain ⟨p, b, _, rfl⟩ := parse_message_some_shape line d hline
  have hh := (assembleRecord_keys p b).1
  rw [List.head?_eq_some_iff] at hh
  exact hh

theorem record_keys_allowed (d : PyDict) (hd : ∃ line, parse_message line = some d) :
    ∀ k ∈ d.map (fun kv => kv.1), allowedKey k := by
  obtain ⟨line, hline⟩ := hd
  obtain ⟨p, b, _, rfl⟩ := parse_message_some_shape line d hline
  exact (assembleRecord_keys p b).2

theorem final_columns_spec (msgs : List PyDict)
    (h : ∀ d ∈ msgs, ∃ line, parse_message line = some d) :
    (msgs = [] → final_columns msgs = ordered_columns) ∧
    (msgs ≠ [] → final_columns msgs =
      ordered_columns ++ "Unknown Tags".toList :: spec_unknown_columns msgs) ∧
    (final_columns msgs).Nodup := by
  have hallowed : ∀ k ∈ msgs.flatMap (fun m => m.map (fun kv => kv.1)), allowedKey k := by
    intro k hk
    rw [List.mem_flatMap] at hk
    obtain ⟨d, hd, hkd⟩ := hk
    exact record_keys_allowed d (h d hd) k hkd
  refine ⟨?_, ?_, ?_⟩
  · intro he
    subst he
    rfl
  · intro hne
    cases msgs with
    | nil => exact absurd rfl hne
    | cons d rest =>
      obtain ⟨t, ht⟩ := record_keys_head d (h d (List.mem_cons_self _ _))
      have hX : ∀ x ∈ t ++ rest.flatMap (fun m => m.map (fun kv => kv.1)), allowedKey x := by
        intro x hx
        apply hallowed
        rw [List.flatMap_cons, ht, List.cons_append]
        exact List.mem_cons_of_mem _ hx
      have hfc : ∀ x ∈ t ++ rest.flatMap (fun m => m.map (fun kv => kv.1)),
          (decide (x ≠ "Unknown Tags".toList) && decide (¬ x ∈ ordered_columns)) =
            "Unknown Tag ".toList.isPrefixOf x := by
        intro x hx
        rcases hX x hx with hord | rfl | hutp
        · simp [hord]
          exact ordered_no_utpref x hord
        · decide
        · have hxo : ¬ x ∈ ordered_columns := by
            intro hc
            have hfalse := ordered_no_utpref x hc
            rw [hutp] at hfalse
            cases hfalse
          have hxut : ¬ x = "Unknown Tags".toList := by
            intro hc
            rw [hc, utpref_uts_false] at hutp
            cases hutp
          rw [hutp, Bool.and_eq_true]
          exact ⟨by simpa using hxut, by simpa using hxo⟩
      have hucons : ∀ (a : List Char) (l : List (List Char)),
          dedupFirst (a :: l) = a :: (dedupFirst l).filter (fun b => decide (b ≠ a)) :=
        fun a l => rfl
      unfold final_columns extra_columns df_columns spec_unknown_columns
      rw [List.flatMap_cons, ht, List.cons_append]
      congr 1
      rw [← dedupFirst_filter, List.filter_cons_of_pos (by decide),
        List.filter_cons_of_neg (by decide), hucons]
      congr 1
      rw [← dedupFirst_filter, List.filter_filter]
      congr 1
      exact List.filter_congr hfc
  · apply List.Nodup.append ordered_nodup
    · exact List.Nodup.filter _ (dedupFirst_nodup _)
    · intro a ha hae
      have hq := List.of_mem_filter hae
      simp at hq
      exact hq ha

/-! ### Claim theorems -/

theorem parse_message_eq_none_of_no_sep (l : List Char)
    (h : ¬ ("]: ".toList <:+: l)) : parse_message l = none := by
  rw [parse_message_none_iff, pyFind_none_iff]
  intro j
  cases hb : "]: ".toList.isPrefixOf (l.drop j) with
  | false => rfl
  | true => exact absurd ((infix_iff_occ _ _).mpr ⟨j, hb⟩) h

/-- Claim C4: `parse_message` — the decoder — fails (returns `none`,
modelling the raised `ValueError`) if and only if the line does not
contain the separator `']: '`; every line containing `']: '` decodes
successfully to a record. -/
theorem claim_C4 (line : List Char) :
    parse_message line = none ↔ ¬ ("]: ".toList <:+: line) := by
  constructor
  · intro h hc
    rcases (infix_iff_occ _ _).mp hc with ⟨j, hj⟩
    rw [parse_message_none_iff, pyFind_none_iff] at h
    rw [h j] at hj
    cases hj
  · exact parse_message_eq_none_of_no_sep line

/-- Claim C1 counterexample: the batch made of the well-formed line
`X]: 35=D` and the separator-free line `nosep` fails as a whole:
`process_file` yields no records at all, even though the sibling line
parses on its own — contradicting the claim that every well-formed
line's decoded record survives such a batch. -/
theorem claim_C1_counterexample :
    process_file ["X]: 35=D".toList, "nosep".toList] = none ∧
      (parse_message "X]: 35=D".toList).isSome = true := ⟨rfl, rfl⟩

/-- Claim C1 (amended): if any non-blank line of the batch lacks `']: '`,
the whole batch fails: `process_file` returns no records at all (the
per-line `ValueError` escapes the whole list comprehension), so the
decoded records of well-formed sibling lines are lost and no per-line
report is produced. -/
theorem claim_C1_amended (lines : List (List Char)) (l : List Char)
    (hmem : l ∈ lines) (hnb : strip l ≠ []) (hnosep : ¬ ("]: ".toList <:+: l)) :
    process_file lines = none := by
  unfold process_file
  apply parse_all_eq_none _ l
  · rw [List.mem_filter]
    exact ⟨hmem, by simpa using hnb⟩
  · exact parse_message_eq_none_of_no_sep l hnosep

/-- Witness for the amended claim C1 at a concrete two-line batch. -/
theorem claim_C1_amended_witness :
    process_file ["X]: 35=D".toList, "nosep".toList] = none := by
  apply claim_C1_amended _ "nosep".toList
  · exact List.mem_cons_of_mem _ (List.mem_cons_self _ _)
  · decide
  · intro hc
    rcases (infix_iff_occ _ _).mp hc with ⟨j, hj⟩
    have hn : pyFind "]: ".toList "nosep".toList = none := rfl
    rw [pyFind_none_iff] at hn
    rw [hn j] at hj
    cases hj

/-- Claim C2 counterexample: for the line `X]: 447=B` the tag-447 sequence
is non-empty after body decoding (it is `[B]`), yet the decoded record
carries none of the three repeating-group entries — the code attaches the
group only when the tag-448 sequence is non-empty. -/
theorem claim_C2_counterexample :
    tagSeq "447".toList "447=B".toList = ["B".toList] ∧
    (parse_message "X]: 447=B".toList).map (alookup "448 PartyID".toList) =
      some none ∧
    (parse_message "X]: 447=B".toList).map (alookup "447 PartyIDSource".toList) =
      some none ∧
    (parse_message "X]: 447=B".toList).map (alookup "452 PartyRole".toList) =
      some none := ⟨rfl, rfl, rfl, rfl⟩

/-- Claim C2 (amended): all three repeating-group sequences are attached
to the record exactly when the PartyID (tag 448) sequence is non-empty
after body decoding; when the 448 sequence is empty none of the three is
attached, even if the 447 or 452 sequences are non-empty.  In particular
a body `447=B` with no `448` yields a record without the repeating group. -/
theorem claim_C2_amended (line p b : List Char)
    (hsplit : splitFirstStr "]: ".toList line = some (p, b))
    (d : PyDict) (hd : parse_message line = some d) :
    (tagSeq "448".toList b ≠ [] →
      alookup "448 PartyID".toList d = some (Value.lst (tagSeq "448".toList b)) ∧
      alookup "447 PartyIDSource".toList d = some (Value.lst (tagSeq "447".toList b)) ∧
      alookup "452 PartyRole".toList d = some (Value.lst (tagSeq "452".toList b))) ∧
    (tagSeq "448".toList b = [] →
      alookup "448 PartyID".toList d = none ∧
      alookup "447 PartyIDSource".toList d = none ∧
      alookup "452 PartyRole".toList d = none) := by
  rw [parse_message_eq_assemble line p b hsplit] at hd
  obtain rfl := (Option.some.inj hd).symm
  exact assembleRecord_group p b

/-- Witness for the amended claim C2 at the line `X]: 447=B`. -/
theorem claim_C2_amended_witness :
    alookup "448 PartyID".toList ((parse_message "X]: 447=B".toList).getD []) = none ∧
    alookup "447 PartyIDSource".toList
      ((parse_message "X]: 447=B".toList).getD []) = none ∧
    alookup "452 PartyRole".toList ((parse_message "X]: 447=B".toList).getD []) = none :=
  (claim_C2_amended "X]: 447=B".toList "X".toList "447=B".toList rfl
    ((parse_message "X]: 447=B".toList).getD []) rfl).2 rfl

/-- Claim C3 counterexample: the lines `X]: TID=A` and `X]: TID=B` have
identical preambles (`X`), yet the decoded records carry different `TID`
entries, because a body part whose tag code is the literal `TID` is looked
up in the schema and overwrites the preamble-derived pseudo-field. -/
theorem claim_C3_counterexample :
    (splitFirstStr "]: ".toList "X]: TID=A".toList).map (fun q => q.1) =
      some "X".toList ∧
    (splitFirstStr "]: ".toList "X]: TID=B".toList).map (fun q => q.1) =
      some "X".toList ∧
    (parse_message "X]: TID=A".toList).map (alookup "TID".toList) =
      some (some (Value.str "A".toList)) ∧
    (parse_message "X]: TID=B".toList).map (alookup "TID".toList) =
      some (some (Value.str "B".toList)) ∧
    Value.str "A".toList ≠ Value.str "B".toList :=
  ⟨rfl, rfl, rfl, rfl, by decide⟩

/-- Claim C3 (amended): two lines with identical preambles decode to
records with identical `TID` and `Order Type` entries provided no body
part of either line has the literal tag code `TID` or `Order Type`; body
parts with those tag codes overwrite the preamble-derived pseudo-fields. -/
theorem claim_C3_amended (l1 l2 p b1 b2 : List Char)
    (h1 : splitFirstStr "]: ".toList l1 = some (p, b1))
    (h2 : splitFirstStr "]: ".toList l2 = some (p, b2))
    (hb1 : ∀ part ∈ splitOn '|' b1, ∀ key value,
      splitFirstChar '=' part = some (key, value) →
      key ≠ "TID".toList ∧ key ≠ "Order Type".toList)
    (hb2 : ∀ part ∈ splitOn '|' b2, ∀ key value,
      splitFirstChar '=' part = some (key, value) →
      key ≠ "TID".toList ∧ key ≠ "Order Type".toList)
    (d1 d2 : PyDict) (hd1 : parse_message l1 = some d1)
    (hd2 : parse_message l2 = some d2) :
    alookup "TID".toList d1 = alookup "TID".toList d2 ∧
    alookup "Order Type".toList d1 = alookup "Order Type".toList d2 := by
  rw [parse_message_eq_assemble l1 p b1 h1] at hd1
  rw [parse_message_eq_assemble l2 p b2 h2] at hd2
  obtain rfl := (Option.some.inj hd1).symm
  obtain rfl := (Option.some.inj hd2).symm
  constructor
  · rw [assembleRecord_tid p b1 (fun part hp k v hs => (hb1 part hp k v hs).1),
      assembleRecord_tid p b2 (fun part hp k v hs => (hb2 part hp k v hs).1)]
  · rw [assembleRecord_ot p b1 (fun part hp k v hs => (hb1 part hp k v hs).2),
      assembleRecord_ot p b2 (fun part hp k v hs => (hb2 part hp k v hs).2)]

/-- Witness for the amended claim C3 at the lines `X]: q` and `X]: r`. -/
theorem claim_C3_amended_witness :
    alookup "TID".toList ((parse_message "X]: q".toList).getD []) =
      alookup "TID".toList ((parse_message "X]: r".toList).getD []) ∧
    alookup "Order Type".toList ((parse_message "X]: q".toList).getD []) =
      alookup "Order Type".toList ((parse_message "X]: r".toList).getD []) := by
  apply claim_C3_amended "X]: q".toList "X]: r".toList "X".toList "q".toList "r".toList
    rfl rfl ?hb1 ?hb2 _ _ rfl rfl
  case hb1 =>
    intro part hpart key value hsp
    rw [show splitOn '|' "q".toList = ["q".toList] from rfl] at hpart
    obtain rfl := List.mem_singleton.mp hpart
    rw [show splitFirstChar '=' "q".toList = none from rfl] at hsp
    cases hsp
  case hb2 =>
    intro part hpart key value hsp
    rw [show splitOn '|' "r".toList = ["r".toList] from rfl] at hpart
    obtain rfl := List.mem_singleton.mp hpart
    rw [show splitFirstChar '=' "r".toList = none from rfl] at hsp
    cases hsp

/-- Claim C5 counterexample: the one-record batch built from `X]: 35=D`
yields a table whose column sequence contains the column `Unknown Tags`,
which is neither the transactionId column, nor the classifier column, nor
a Field Schema display name (all of which make up `ordered_columns`), nor
an `Unknown Tag <code>` column — so the claimed column set is exceeded. -/
theorem claim_C5_counterexample :
    (parse_message "X]: 35=D".toList).isSome = true ∧
    "Unknown Tags".toList ∈ final_columns [(parse_message "X]: 35=D".toList).getD []] ∧
    "Unknown Tags".toList ∉ ordered_columns ∧
    "Unknown Tag ".toList.isPrefixOf "Unknown Tags".toList = false := by
  refine ⟨rfl, by decide, by decide, by decide⟩

/-- Claim C5 (amended): for a non-empty batch of decoded records the
assembled column sequence is exactly the transactionId column, the
classifier column, every Field Schema display name in schema order
(together `ordered_columns`), then the stray `Unknown Tags` column, then
one column per unknown tag code in order of first appearance across the
records; every column appears exactly once.  For an empty batch the
columns are exactly the canonical ones, with no `Unknown Tags` column. -/
theorem claim_C5_amended (msgs : List PyDict)
    (h : ∀ d ∈ msgs, ∃ line, parse_message line = some d) :
    (msgs = [] → final_columns msgs = ordered_columns) ∧
    (msgs ≠ [] → final_columns msgs =
      ordered_columns ++ "Unknown Tags".toList :: spec_unknown_columns msgs) ∧
    (final_columns msgs).Nodup :=
  final_columns_spec msgs h

/-- Witness for the amended claim C5 at the one-record batch of
`X]: 9999=1`. -/
theorem claim_C5_amended_witness :
    ([(parse_message "X]: 9999=1".toList).getD []] ≠ ([] : List PyDict) →
      final_columns [(parse_message "X]: 9999=1".toList).getD []] =
        ordered_columns ++ "Unknown Tags".toList ::
          spec_unknown_columns [(parse_message "X]: 9999=1".toList).getD []]) ∧
    (final_columns [(parse_message "X]: 9999=1".toList).getD []]).Nodup := by
  have happ := claim_C5_amended [(parse_message "X]: 9999=1".toList).getD []] ?h
  · exact ⟨happ.2.1, happ.2.2⟩
  case h =>
    intro d hd
    rw [List.mem_singleton] at hd
    subst hd
    exact ⟨"X]: 9999=1".toList, rfl⟩

/-- Claim C6 counterexample: for the line ` (TID=A)]: x` the preamble is
` (TID=A)`, the first `(TID=` marker is at index 1 and the first `)` at or
after it is at index 7, so the claimed transactionId is the preamble
prefix `preamble.take 8` = ` (TID=A)`; the decoder instead returns the
stripped value `(TID=A)`, which differs from that prefix. -/
theorem claim_C6_counterexample :
    (splitFirstStr "]: ".toList " (TID=A)]: x".toList).map (fun q => q.1) =
      some " (TID=A)".toList ∧
    pyFind "(TID=".toList " (TID=A)".toList = some 1 ∧
    pyFindFrom ")".toList " (TID=A)".toList 1 = some 7 ∧
    (extract_preamble_details " (TID=A)]: x".toList).map (fun q => q.1) =
      some "(TID=A)".toList ∧
    "(TID=A)".toList ≠ (" (TID=A)".toList).take (7 + 1) :=
  ⟨rfl, rfl, rfl, rfl, by decide⟩

/-- Claim C6 (amended): for every line containing `']: '`, if the preamble
contains `(TID=` (first occurrence at `i`) and a `)` occurs at or after
that marker (first such at `j`), the decoded transactionId is the preamble
prefix up to and including that `)` — trimmed of surrounding whitespace;
if the preamble contains no `(TID=`, it is the sentinel `Unknown TID`. -/
theorem claim_C6_amended (line p b : List Char)
    (hsplit : splitFirstStr "]: ".toList line = some (p, b))
    (tid ot : List Char) (hx : extract_preamble_details line = some (tid, ot)) :
    (∀ i j, firstOccAt "(TID=".toList p i → firstOccFromAt ")".toList p i j →
      tid = strip (p.take (j + 1))) ∧
    (noOcc "(TID=".toList p → tid = "Unknown TID".toList) := by
  rw [extract_eq_of_split line p b hsplit] at hx
  injection Option.some.inj hx with h1 h2
  subst h1
  constructor
  · intro i j hi hj
    unfold preambleTid
    rw [pyFind_eq_some_of_first _ _ _ hi]
    show strip (List.take (match pyFindFrom ")".toList p i with
      | some j => j + 1
      | none => 0) p) = strip (List.take (j + 1) p)
    rw [pyFindFrom_eq_some_of_first _ _ _ _ hj]
  · intro hno
    unfold preambleTid
    rw [(pyFind_none_iff _ _).mpr hno]

/-- Witness for the amended claim C6 at the lines `A(TID=B)]: x` (marker
present, closing paren present) and `X]: y` (no marker). -/
theorem claim_C6_amended_witness :
    ((extract_preamble_details "A(TID=B)]: x".toList).getD ([], [])).1 =
      strip ("A(TID=B)".toList.take (7 + 1)) ∧
    ((extract_preamble_details "X]: y".toList).getD ([], [])).1 =
      "Unknown TID".toList := by
  constructor
  · exact (claim_C6_amended "A(TID=B)]: x".toList "A(TID=B)".toList "x".toList rfl _ _
      rfl).1 1 7
      ⟨by decide, by
        intro j hj
        have hj0 : j = 0 := by omega
        subst hj0
        decide⟩
      ⟨by omega, by decide, by
        intro j2 h1 h2
        interval_cases j2 <;> decide⟩
  · exact (claim_C6_amended "X]: y".toList "X".toList "y".toList rfl _ _ rfl).2
      ((pyFind_none_iff _ _).mp rfl)

/-- Claim C10: for every line containing `']: '` whose preamble contains
`(TID=` (first occurrence at `i`) but no `)` at or after that marker, the
decoded transactionId is the empty string (Python `find` returns `-1`, so
`tid_end = 0` and the empty prefix is taken) — neither the sentinel nor
the remainder of the preamble. -/
theorem claim_C10 (line p b : List Char)
    (hsplit : splitFirstStr "]: ".toList line = some (p, b))
    (tid ot : List Char) (hx : extract_preamble_details line = some (tid, ot))
    (i : Nat) (hi : firstOccAt "(TID=".toList p i) (hno : noOccFrom ")".toList p i) :
    tid = [] := by
  rw [extract_eq_of_split line p b hsplit] at hx
  injection Option.some.inj hx with h1 h2
  subst h1
  unfold preambleTid
  rw [pyFind_eq_some_of_first _ _ _ hi]
  show strip (List.take (match pyFindFrom ")".toList p i with
    | some j => j + 1
    | none => 0) p) = []
  rw [(pyFindFrom_none_iff _ _ _).mpr hno]
  rfl

/-- Witness for claim C10 at the line `(TID=A]: x`. -/
theorem claim_C10_witness :
    ((extract_preamble_details "(TID=A]: x".toList).getD ([], [])).1 = [] :=
  claim_C10 "(TID=A]: x".toList "(TID=A".toList "x".toList rfl _ _ rfl 0
    ⟨by decide, fun j hj => absurd hj (by omega)⟩
    ((pyFindFrom_none_iff _ _ _).mp rfl)

/-- Claim C8: for every line containing `']: '`, if the preamble contains
`| ` (first occurrence at `i`) the decoded classifier is everything after
that first occurrence, trimmed of surrounding whitespace; if the preamble
contains no `| `, it is the sentinel `Unknown Order Type`. -/
theorem claim_C8 (line p b : List Char)
    (hsplit : splitFirstStr "]: ".toList line = some (p, b))
    (tid ot : List Char) (hx : extract_preamble_details line = some (tid, ot)) :
    (∀ i, firstOccAt "| ".toList p i → ot = strip (p.drop (i + 2))) ∧
    (noOcc "| ".toList p → ot = "Unknown Order Type".toList) := by
  rw [extract_eq_of_split line p b hsplit] at hx
  injection Option.some.inj hx with h1 h2
  subst h2
  constructor
  · intro i hi
    unfold preambleOt
    rw [pyFind_eq_some_of_first _ _ _ hi]
  · intro hno
    unfold preambleOt
    rw [(pyFind_none_iff _ _).mpr hno]

/-- Witness for claim C8 at `Session(TID=XYZ123) | NewOrder]: 35=D` (the
first `| ` is at index 20) and at `X]: y` (no `| `). -/
theorem claim_C8_witness :
    ((extract_preamble_details
        "Session(TID=XYZ123) | NewOrder]: 35=D".toList).getD ([], [])).2 =
      strip ("Session(TID=XYZ123) | NewOrder".toList.drop (20 + 2)) ∧
    ((extract_preamble_details "X]: y".toList).getD ([], [])).2 =
      "Unknown Order Type".toList := by
  constructor
  · exact (claim_C8 "Session(TID=XYZ123) | NewOrder]: 35=D".toList
      "Session(TID=XYZ123) | NewOrder".toList "35=D".toList rfl _ _ rfl).1 20
      ⟨by decide, by
        intro j hj
        interval_cases j <;> decide⟩
  · exact (claim_C8 "X]: y".toList "X".toList "y".toList rfl _ _ rfl).2
      ((pyFind_none_iff _ _).mp rfl)

/-- Claim C7: for every line whose body is
`448=A|447=B|452=1|448=C|447=D|452=2`, the decoded record's PartyID
sequence is `[A, C]`, its PartyIDSource sequence `[B, D]` and its
PartyRole sequence `[1, 2]`, in encounter order; and in general the loop
appends every occurrence of tags 448, 447 and 452 to the corresponding
accumulator in the order the parts appear. -/
theorem claim_C7 :
    (∀ line p, splitFirstStr "]: ".toList line =
        some (p, "448=A|447=B|452=1|448=C|447=D|452=2".toList) →
      ∀ d, parse_message line = some d →
        alookup "448 PartyID".toList d =
          some (Value.lst ["A".toList, "C".toList]) ∧
        alookup "447 PartyIDSource".toList d =
          some (Value.lst ["B".toList, "D".toList]) ∧
        alookup "452 PartyRole".toList d =
          some (Value.lst ["1".toList, "2".toList])) ∧
    (∀ (parts : List (List Char)) (st : PState),
      ((parts.foldl processPart st).partyIDs =
        st.partyIDs ++ parts.filterMap (tagSel "448".toList)) ∧
      ((parts.foldl processPart st).partyIDSources =
        st.partyIDSources ++ parts.filterMap (tagSel "447".toList)) ∧
      ((parts.foldl processPart st).partyRoles =
        st.partyRoles ++ parts.filterMap (tagSel "452".toList))) := by
  constructor
  · intro line p hsplit d hd
    rw [parse_message_eq_assemble line p _ hsplit] at hd
    obtain rfl := (Option.some.inj hd).symm
    have hg := (assembleRecord_group p
      "448=A|447=B|452=1|448=C|447=D|452=2".toList).1 (by decide)
    exact ⟨hg.1, hg.2.1, hg.2.2⟩
  · intro parts st
    exact ⟨foldl_partyIDs parts st, foldl_partyIDSources parts st,
      foldl_partyRoles parts st⟩

/-- Witness for claim C7 at the line `X]: 448=A|447=B|452=1|448=C|447=D|452=2`. -/
theorem claim_C7_witness :
    alookup "448 PartyID".toList
      ((parse_message "X]: 448=A|447=B|452=1|448=C|447=D|452=2".toList).getD []) =
      some (Value.lst ["A".toList, "C".toList]) ∧
    alookup "447 PartyIDSource".toList
      ((parse_message "X]: 448=A|447=B|452=1|448=C|447=D|452=2".toList).getD []) =
      some (Value.lst ["B".toList, "D".toList]) ∧
    alookup "452 PartyRole".toList
      ((parse_message "X]: 448=A|447=B|452=1|448=C|447=D|452=2".toList).getD []) =
      some (Value.lst ["1".toList, "2".toList]) :=
  claim_C7.1 "X]: 448=A|447=B|452=1|448=C|447=D|452=2".toList "X".toList rfl
    ((parse_message "X]: 448=A|447=B|452=1|448=C|447=D|452=2".toList).getD []) rfl

/-- Claim C9: every record returned by `parse_message` maps the key
`Unknown Tags` to the empty dict (it is initialised and never written),
and the table assembled from any non-empty batch of such records contains
an `Unknown Tags` column, placed after columns none of which is an
`Unknown Tag <code>` column (so before every unknown-tag column), exactly
once; its cells hold the empty dict, never a scalar field value. -/
theorem claim_C9 :
    (∀ line d, parse_message line = some d →
      alookup "Unknown Tags".toList d = some Value.dict0) ∧
    (∀ msgs : List PyDict, (∀ d ∈ msgs, ∃ line, parse_message line = some d) →
      msgs ≠ [] →
      ∃ pre post, final_columns msgs = pre ++ "Unknown Tags".toList :: post ∧
        (∀ c ∈ pre, "Unknown Tag ".toList.isPrefixOf c = false) ∧
        "Unknown Tags".toList ∉ pre ∧ "Unknown Tags".toList ∉ post) := by
  constructor
  · intro line d hd
    obtain ⟨p, b, hs, rfl⟩ := parse_message_some_shape line d hd
    exact assembleRecord_ut p b
  · intro msgs h hne
    obtain ⟨-, h2, h3⟩ := final_columns_spec msgs h
    refine ⟨ordered_columns, spec_unknown_columns msgs, h2 hne, ordered_no_utpref,
      ut_not_mem_ordered, ?_⟩
    rw [h2 hne] at h3
    have hud := List.Nodup.of_append_right h3
    rw [List.nodup_cons] at hud
    exact hud.1

/-- Witness for claim C9 at the one-record batch of `X]: 35=D`. -/
theorem claim_C9_witness :
    alookup "Unknown Tags".toList ((parse_message "X]: 35=D".toList).getD []) =
      some Value.dict0 ∧
    ∃ pre post, final_columns [(parse_message "X]: 35=D".toList).getD []] =
      pre ++ "Unknown Tags".toList :: post ∧
      (∀ c ∈ pre, "Unknown Tag ".toList.isPrefixOf c = false) ∧
      "Unknown Tags".toList ∉ pre ∧ "Unknown Tags".toList ∉ post := by
  constructor
  · exact claim_C9.1 "X]: 35=D".toList _ rfl
  · refine claim_C9.2 [(parse_message "X]: 35=D".toList).getD []] ?_ (by simp)
    intro d hd
    rw [List.mem_singleton] at hd
    subst hd
    exact ⟨"X]: 35=D".toList, rfl⟩
